import Mathlib

/-!
# Verification of the snowflare relay core

A shallow embedding of the relay's event-ingestion pipeline, storage layer
(`KvD1EventRepository`), subscription handling (`ReqMessageHandler`),
authentication (`Auth.Challenge`, `AuthMessageHandler`) and the event message
handler (`EventMessageHandler`), together with theorems settling the spec's
claims about them.

Conventions of the embedding:
* JS strings are Lean `String`s; `localeCompare` on lowercase hex ids coincides
  with codepoint order, modelled by `String` `<`.
* JS numbers used as unix timestamps are `Int`; kinds are `Nat`.
* The KV + D1 store is a `List Event`; the KV put keyed by `event.id` makes the
  store id-keyed, so `save` replaces any row with the same id.
* Asynchronous I/O is sequentialized exactly in program order (message handling
  per connection is sequential in the source).
-/

namespace Snowflare

/-- Event record, from the nostr-tools `Event` type used throughout `src`. -/
structure Event where
  id : String
  pubkey : String
  created_at : Int
  kind : Nat
  tags : List (List String)
  content : String
  sig : String
deriving DecidableEq, Repr

/-- Filter record, from the nostr-tools `Filter` type: optional `ids`,
`authors`, `kinds`, `since`/`until`, `limit`, and `#<letter>` tag-value sets
(`tagFilters` holds the letter without the `#`).  The source field `until` is a
Lean keyword and is embedded as `untilTime`. -/
structure Filter where
  ids : Option (List String) := none
  authors : Option (List String) := none
  kinds : Option (List Nat) := none
  since : Option Int := none
  untilTime : Option Int := none
  limit : Option Nat := none
  tagFilters : List (String × List String) := []
deriving DecidableEq, Repr

/-- `AuthSession` from `src/auth.ts` (`Auth.Session`). -/
structure Session where
  challenge : String
  challengedAt : Int
deriving DecidableEq, Repr

/-- `Connection` from `src/connection.ts`; `pubkeys : Set<string>` is a
duplicate-free list. -/
structure Connection where
  id : String
  ipAddress : Option String
  url : String
  auth : Option Session
  pubkeys : List String
deriving DecidableEq, Repr

/-- NIP-11 limitation block from `config/default.ts`. -/
structure Limitation where
  max_subscriptions : Nat
  max_filters : Nat
  max_limit : Nat
  max_subid_length : Nat
  auth_required : Bool
  restricted_writes : Bool
deriving DecidableEq, Repr

/-- Relay configuration (`config/default.ts` merged with the override); the
override file is not part of `src`, so handlers take the configuration as a
parameter and `defaultConfig` records the known defaults. -/
structure Config where
  limitation : Limitation
  auth_timeout : Nat
  auth_limit : Nat
  default_limit : Nat
deriving DecidableEq, Repr

/-- The values of `config/default.ts`. -/
def defaultConfig : Config :=
  { limitation :=
      { max_subscriptions := 20
        max_filters := 10
        max_limit := 500
        max_subid_length := 50
        auth_required := false
        restricted_writes := true }
    auth_timeout := 600
    auth_limit := 5
    default_limit := 50 }

/-- Outbound protocol frames sent on one websocket. -/
inductive Frame where
  | ok (eventId : String) (success : Bool) (message : String)
  | notice (message : String)
  | event (subId : String) (e : Event)
  | eose (subId : String)
  | closed (subId : String) (message : String)
  | auth (challenge : String)
deriving DecidableEq, Repr

/-- Repository calls made by a handler, recorded in program order. -/
inductive RepoCall where
  | save
  | saveReplaceable
  | saveAddressable
  | deleteBy
deriving DecidableEq, Repr

/-! ## Kind classification (nostr-tools/kinds, imported by `src`) -/

/-- `isReplaceableKind` from nostr-tools: kind 0, 3 or 10000 ≤ k < 20000. -/
def isReplaceableKind (kind : Nat) : Bool :=
  kind = 0 || kind = 3 || (10000 ≤ kind && kind < 20000)

/-- `isEphemeralKind` from nostr-tools: 20000 ≤ k < 30000. -/
def isEphemeralKind (kind : Nat) : Bool :=
  20000 ≤ kind && kind < 30000

/-- `isAddressableKind` from nostr-tools: 30000 ≤ k < 40000. -/
def isAddressableKind (kind : Nat) : Bool :=
  30000 ≤ kind && kind < 40000

/-- `EventDeletion` from nostr-tools/kinds. -/
def EventDeletion : Nat := 5

/-! ## Small list helpers mirroring JS idioms -/

/-- `[...new Set(l)]`: first-occurrence deduplication (also the shape of the
`indexedTagsMap` value accumulation in `#saveToD1`). -/
def uniqueList (l : List String) : List String :=
  l.foldl (fun acc v => if acc.contains v then acc else acc ++ [v]) []

/-- The `reduce` in `ReqMessageHandler.handle` removing events whose id was
already seen. -/
def dedupById (events : List Event) : List Event :=
  events.foldl (fun acc e => if acc.any (fun x => x.id = e.id) then acc else acc ++ [e]) []

/-- First tag of a given name, as `tags.find(([name]) => name === n)`. -/
def findTag (tags : List (List String)) (n : String) : Option (List String) :=
  tags.find? (fun t => t.head? = some n)

/-- `tags.find(...)?.at(1)`: the value of the first tag of a given name. -/
def tagValue (tags : List (List String)) (n : String) : Option String :=
  (findTag tags n).bind (fun t => t.get? 1)

/-- Codepoint-lexicographic strict comparison on characters lists. -/
def charListLt : List Char → List Char → Bool
  | [], [] => false
  | [], _ :: _ => true
  | _ :: _, [] => false
  | a :: as, b :: bs => if a < b then true else if b < a then false else charListLt as bs

/-- `a.localeCompare(b) < 0` on the lowercase hex ids compared by the
repository: codepoint-lexicographic order. -/
def strLt (a b : String) : Bool :=
  charListLt a.data b.data

/-! ## External helpers missing from `src` (`src/nostr.ts`) -/

/-- Modelled from the spec: `hexRegExp` from the missing `src/nostr.ts`; the
spec fixes event ids as 32-byte lowercase hex strings ("identifiers are stored
and compared case-insensitively and compactly"). -/
def isHex64 (s : String) : Bool :=
  s.length = 64 && s.data.all (fun c => c.isDigit || (('a' ≤ c) && (c ≤ 'f')))

/-- Modelled from the spec: `tagsFilterRegExp` from the missing
`src/nostr.ts`; the design "indexes a fixed allow-list of letters", i.e.
single-letter tag names. -/
def isIndexedTagName (s : String) : Bool :=
  s.length = 1 && s.data.all Char.isAlpha

/-- The tag values stored in the D1 `tags` column for one letter: the
`indexedTagsMap` built by `#saveToD1` (string-valued tags of an indexed
single-letter name, values deduplicated in order). -/
def storedTagValues (e : Event) (k : String) : List String :=
  if isIndexedTagName k then
    uniqueList (e.tags.filterMap (fun t => if t.head? = some k then t.get? 1 else none))
  else []

/-- Modelled from the spec: `broadcastable` (the Filter Matcher, missing from
`src`): an event matches iff every present filter field is satisfied —
`ids`/`authors`/`kinds` membership, inclusive `since`/`until` bounds, and for
every tag filter a tag of that letter whose value is in the set. -/
def broadcastable (f : Filter) (e : Event) : Bool :=
  (match f.ids with | none => true | some ids => ids.contains e.id) &&
  (match f.authors with | none => true | some as_ => as_.contains e.pubkey) &&
  (match f.kinds with | none => true | some ks => ks.contains e.kind) &&
  (match f.since with | none => true | some s => decide (s ≤ e.created_at)) &&
  (match f.untilTime with | none => true | some u => decide (e.created_at ≤ u)) &&
  f.tagFilters.all (fun p =>
    (e.tags.filterMap (fun t => if t.head? = some p.1 then t.get? 1 else none)).any
      (fun v => p.2.contains v))

/-! ## KvD1EventRepository -/

/-- One row of the `SELECT LOWER(HEX(id)) as id, created_at FROM events ...`
queries feeding `#saveLatestEvent`. -/
structure Row where
  id : String
  created_at : Int
deriving DecidableEq, Repr

/-- The order of `ORDER BY created_at DESC`: newer first. -/
def descOrder (a b : Event) : Prop :=
  b.created_at ≤ a.created_at

instance : DecidableRel descOrder :=
  fun a b => inferInstanceAs (Decidable (b.created_at ≤ a.created_at))

/-- `ORDER BY created_at DESC` (ties have no defined order in SQL; within the
one-row-per-key invariant relevant here ties do not arise). -/
def sortDesc (l : List Event) : List Event :=
  l.insertionSort descOrder

/-- `KvD1EventRepository.save`: KV put keyed by `event.id` (an upsert) followed
by the D1 insert; the id-keyed store replaces any row with the same id. -/
def save (e : Event) (store : List Event) : List Event :=
  e :: store.filter (fun x => x.id ≠ e.id)

/-- `KvD1EventRepository.#delete`: early return on an empty id list, otherwise
remove the D1 rows and KV entries for those ids. -/
def deleteIds (ids : List String) (store : List Event) : List Event :=
  if ids.isEmpty then store else store.filter (fun x => !(ids.contains x.id))

/-- The replaceable-event `SELECT`: rows with the same `(kind, pubkey)`,
ordered by `created_at` descending. -/
def selectReplaceable (store : List Event) (kind : Nat) (pubkey : String) : List Row :=
  (sortDesc (store.filter (fun x => x.kind = kind && x.pubkey = pubkey))).map
    (fun x => ⟨x.id, x.created_at⟩)

/-- The addressable-event `SELECT`: additionally requires the stored `d` tag
values to contain the identifier. -/
def selectAddressable (store : List Event) (kind : Nat) (pubkey : String)
    (identifier : String) : List Row :=
  (sortDesc (store.filter (fun x =>
    x.kind = kind && x.pubkey = pubkey && (storedTagValues x "d").contains identifier))).map
    (fun x => ⟨x.id, x.created_at⟩)

/-- `KvD1EventRepository.#saveLatestEvent`: keep the stored latest when it has
a larger `created_at`, or on a tie when the incoming id does not compare
strictly below it (`event.id.localeCompare(latest.id) >= 0`); otherwise delete
every selected row and save the incoming event. -/
def saveLatestEvent (e : Event) (results : List Row) (store : List Event) : List Event :=
  match results with
  | [] => save e store
  | latest :: _ =>
    if e.created_at < latest.created_at ∨
        (latest.created_at = e.created_at ∧ ¬ strLt e.id latest.id) then
      store
    else
      save e (deleteIds (results.map (fun r => r.id)) store)

/-- `KvD1EventRepository.saveReplaceableEvent`. -/
def saveReplaceableEvent (e : Event) (store : List Event) : List Event :=
  saveLatestEvent e (selectReplaceable store e.kind e.pubkey) store

/-- The `d`-tag identifier used by `saveAddressableEvent`:
`event.tags.find(([name]) => name === "d")?.at(1) ?? ""`. -/
def identifierOf (e : Event) : String :=
  (tagValue e.tags "d").getD ""

/-- `KvD1EventRepository.saveAddressableEvent`. -/
def saveAddressableEvent (e : Event) (store : List Event) : List Event :=
  saveLatestEvent e (selectAddressable store e.kind e.pubkey (identifierOf e)) store

/-- The deduplicated hex ids referenced by the `e` tags of a deletion event:
`[...new Set(event.tags.filter(([name, value]) => name === "e" &&
hexRegExp.test(value)).map(([, id]) => id))]`. -/
def deletionTargetIds (e : Event) : List String :=
  uniqueList ((e.tags.filter (fun t =>
    t.head? = some "e" &&
      (match t.get? 1 with | some v => isHex64 v | none => false))).filterMap
    (fun t => t.get? 1))

/-- `KvD1EventRepository.deleteBy`: collect hex ids of `e` tags, dedupe, look
the rows up, and delete those whose pubkey matches the deletion event and whose
kind is not itself `EventDeletion`. -/
def deleteBy (e : Event) (store : List Event) : List Event :=
  if (deletionTargetIds e).isEmpty then store
  else
    deleteIds
      (((store.filter (fun x => (deletionTargetIds e).contains x.id)).filter
        (fun x => x.pubkey = e.pubkey && x.kind ≠ EventDeletion)).map (fun x => x.id))
      store

/-! ## find (KvD1EventRepository.find / #findByIds / #findByQuery) -/

/-- The order used by nostr-tools `sortEvents`: `created_at` descending, ties
by id ascending. -/
def recentOrder (a b : Event) : Prop :=
  b.created_at < a.created_at ∨ (b.created_at = a.created_at ∧ ¬ strLt b.id a.id)

instance : DecidableRel recentOrder :=
  fun a b => inferInstanceAs (Decidable (_ ∨ _))

/-- `sortEvents` from nostr-tools (external collaborator of `src`): sort by
`created_at` descending, ties by id ascending. -/
def sortEvents (l : List Event) : List Event :=
  l.insertionSort recentOrder

/-- `KvD1EventRepository.#findByIds`: point lookups by id (missing keys are
skipped), then `sortEvents`. -/
def findByIds (store : List Event) (ids : List String) : List Event :=
  sortEvents (ids.filterMap (fun i => store.find? (fun x => x.id = i)))

/-- The conjunctive `WHERE` predicate built by `#findByQuery`. -/
def matchQuery (f : Filter) (x : Event) : Bool :=
  (match f.ids with | none => true | some ids => ids.contains x.id) &&
  (match f.authors with | none => true | some as_ => as_.contains x.pubkey) &&
  (match f.kinds with | none => true | some ks => ks.contains x.kind) &&
  (match f.since with | none => true | some s => decide (s ≤ x.created_at)) &&
  (match f.untilTime with | none => true | some u => decide (x.created_at ≤ u)) &&
  f.tagFilters.all (fun p =>
    (storedTagValues x p.1).any (fun v => (uniqueList p.2).contains v))

/-- `KvD1EventRepository.#findByQuery`: conjunctive filter, `ORDER BY
created_at DESC`, `LIMIT ${filter.limit ?? config.default_limit}`, then the
id-based KV fetch (which re-sorts). -/
def findByQuery (cfg : Config) (store : List Event) (f : Filter) : List Event :=
  let rows := (sortDesc (store.filter (matchQuery f))).take (f.limit.getD cfg.default_limit)
  findByIds store (rows.map (fun x => x.id))

/-- Modelled from the spec for the missing `idsFilterKeys` of `src/nostr.ts`:
"a filter with only `ids` is a point-lookup path", so the ids-only check
requires every other filter field to be absent. -/
def isIdsOnly (f : Filter) : Bool :=
  f.ids.isSome && f.authors.isNone && f.kinds.isNone && f.since.isNone &&
  f.untilTime.isNone && f.limit.isNone && f.tagFilters.isEmpty

/-- `KvD1EventRepository.find`: the ids-only point-lookup path when eligible
(at most `max_limit` ids), otherwise the indexed query path. -/
def find (cfg : Config) (store : List Event) (f : Filter) : List Event :=
  if isIdsOnly f ∧ (f.ids.getD []).length ≤ cfg.limitation.max_limit then
    findByIds store ((f.ids).getD [])
  else findByQuery cfg store f

/-! ## Auth.Challenge (src/auth.ts) -/

/-- Modelled from the spec: `normalizeURL` (external nostr-tools utils)
normalizes case and the trailing slash ("case/scheme/trailing-slash
normalized"). -/
def normalizeURL (s : String) : String :=
  let l := s.data.map Char.toLower
  String.mk (if l.getLast? = some (Char.ofNat 47) then l.dropLast else l)

/-- `Auth.Challenge.validate`: kind must be 22242, the challenge must not have
expired (`challengedAt + auth_timeout * 1000 < Date.now()` rejects), the
echoed challenge must equal the outstanding one, and the echoed relay URL must
normalize to the connection URL. -/
def Challenge.validate (cfg : Config) (e : Event) (auth : Session) (url : String)
    (now : Int) : Bool :=
  if e.kind ≠ 22242 then false
  else if auth.challengedAt + (cfg.auth_timeout : Int) * 1000 < now then false
  else if tagValue e.tags "challenge" ≠ some auth.challenge then false
  else
    match tagValue e.tags "relay" with
    | none => false
    | some relay => normalizeURL relay = normalizeURL url

/-! ## EventMessageHandler.handle -/

/-- Result of one `EventMessageHandler.handle` run: the frames sent to the
submitting client, the repository state after, the (possibly updated)
connection attachment, the repository calls made, and the subscription ids of
live subscriptions the event was broadcast to. -/
structure EventHandleResult where
  frames : List Frame
  store : List Event
  conn : Connection
  calls : List RepoCall
  delivered : List String
deriving DecidableEq, Repr

/-- `#broadcast`: the subscription ids (across live connections) with at least
one matching filter; `subs` lists every live subscription as
`(subscriptionId, filters)`. -/
def broadcastRun (subs : List (String × List Filter)) (e : Event) : List String :=
  (subs.filter (fun p => p.2.any (fun f => broadcastable f e))).map (fun p => p.1)

/-- `event.tags.some(([name]) => name === "-")`. -/
def isProtected (e : Event) : Bool :=
  e.tags.any (fun t => t.head? = some "-")

/-- The d-tag presence check of the addressable branch:
`tags.some(([name, value]) => name === "d" && typeof value === "string")`. -/
def hasDTag (e : Event) : Bool :=
  e.tags.any (fun t => t.head? = some "d" && (t.get? 1).isSome)

/-- `EventMessageHandler.handle`.  `valid` is the outcome of the cryptographic
`verifyEvent` (external), `challenge` the value `sendAuthChallenge` would
generate, `now` the value of `Date.now()`. -/
def handleEvent (cfg : Config) (valid : Bool) (challenge : String) (now : Int)
    (conn : Connection) (subs : List (String × List Filter)) (e : Event)
    (store : List Event) : EventHandleResult :=
  if ¬ valid then
    ⟨[Frame.notice "invalid: event"], store, conn, [], []⟩
  else if (conn.auth.isNone || ¬ conn.pubkeys.contains e.pubkey) &&
      (cfg.limitation.auth_required || cfg.limitation.restricted_writes || isProtected e) then
    let message := if isProtected e
      then "this event may only be published by its author"
      else "we only accept events from registered users"
    ⟨[Frame.auth challenge, Frame.ok e.id false ("auth-required: " ++ message)],
      store, { conn with auth := some ⟨challenge, now⟩ }, [], []⟩
  else if isReplaceableKind e.kind then
    ⟨[Frame.ok e.id true ""], saveReplaceableEvent e store, conn,
      [RepoCall.saveReplaceable], broadcastRun subs e⟩
  else if isAddressableKind e.kind then
    if ¬ hasDTag e then
      ⟨[Frame.ok e.id false "invalid: addressable event requires d tag"], store, conn, [], []⟩
    else
      ⟨[Frame.ok e.id true ""], saveAddressableEvent e store, conn,
        [RepoCall.saveAddressable], broadcastRun subs e⟩
  else if ¬ isEphemeralKind e.kind then
    if e.kind = EventDeletion then
      ⟨[Frame.ok e.id true ""], deleteBy e (save e store), conn,
        [RepoCall.save, RepoCall.deleteBy], broadcastRun subs e⟩
    else
      ⟨[Frame.ok e.id true ""], save e store, conn, [RepoCall.save], broadcastRun subs e⟩
  else
    ⟨[Frame.ok e.id true ""], store, conn, [], broadcastRun subs e⟩

/-! ## ReqMessageHandler.handle -/

/-- `Map.set` on a `Map<string, Filter[]>` kept as an association list in
insertion order. -/
def mapSet (m : List (String × List Filter)) (k : String) (v : List Filter) :
    List (String × List Filter) :=
  if m.any (fun p => p.1 = k) then
    m.map (fun p => if p.1 = k then (k, v) else p)
  else m ++ [(k, v)]

/-- Result of one `ReqMessageHandler.handle` run: frames sent to the client and
the subscription map written to durable storage (`none` when the request is
rejected before the `storage.put`). -/
structure ReqResult where
  frames : List Frame
  stored : Option (List (String × List Filter))
deriving DecidableEq, Repr

/-- `ReqMessageHandler.handle`.  `vf` is the structural-support check
`validateFilter` and `findFn` the repository `find`, both taken as parameters
(`validateFilter` is missing from `src`; `find` is interchangeable per the
repository factory). -/
def handleReq (cfg : Config) (vf : Filter → Bool) (findFn : Filter → List Event)
    (subId : String) (filters : List Filter)
    (subs : List (String × List Filter)) : ReqResult :=
  if cfg.limitation.max_subid_length < subId.length then
    ⟨[Frame.closed subId "unsupported: too long subscription id"], none⟩
  else if cfg.limitation.max_filters < filters.length then
    ⟨[Frame.closed subId "unsupported: too many filters"], none⟩
  else if filters.any (fun f => !(vf f)) then
    ⟨[Frame.closed subId "unsupported: filters contain unsupported elements"], none⟩
  else
    if cfg.limitation.max_subscriptions < (mapSet subs subId filters).length then
      ⟨[Frame.closed subId "unsupported: too many subscriptions"], none⟩
    else
      ⟨(sortEvents (dedupById (filters.map findFn).flatten)).map (Frame.event subId) ++
        [Frame.eose subId], some (mapSet subs subId filters)⟩

/-! ## AuthMessageHandler.handle -/

/-- Result of one `AuthMessageHandler.handle` run. -/
structure AuthResult where
  frames : List Frame
  conn : Connection
deriving DecidableEq, Repr

/-- `AuthMessageHandler.handle`.  `registered` is the outcome of the external
`Account.exists` lookup, `now` the value of `Date.now()` inside
`Challenge.validate`. -/
def handleAuth (cfg : Config) (conn : Connection) (e : Event) (registered : Bool)
    (now : Int) : AuthResult :=
  if conn.pubkeys.contains e.pubkey then
    ⟨[Frame.ok e.id true "duplicate: already authenticated"], conn⟩
  else if cfg.auth_limit ≤ conn.pubkeys.length then
    ⟨[Frame.notice ("too many authentications (> " ++ toString cfg.auth_limit ++ ")")], conn⟩
  else if conn.auth.isNone ||
      !(match conn.auth with
        | none => false
        | some auth => Challenge.validate cfg e auth conn.url now) then
    ⟨[Frame.ok e.id false "invalid: auth"], conn⟩
  else if (cfg.limitation.auth_required || cfg.limitation.restricted_writes) && ¬ registered then
    ⟨[Frame.ok e.id false "restricted: required to register"], conn⟩
  else
    ⟨[Frame.ok e.id true ""], { conn with pubkeys := conn.pubkeys ++ [e.pubkey] }⟩

/-! ## Order lemmas for `charListLt` / `strLt` -/

theorem charListLt_irrefl (l : List Char) : charListLt l l = false := by
  induction l with
  | nil => rfl
  | cons a as ih => simp [charListLt, lt_irrefl, ih]

theorem charListLt_asymm {a b : List Char} (h : charListLt a b = true) :
    charListLt b a = false := by
  induction a generalizing b with
  | nil =>
    cases b with
    | nil => simpa [charListLt] using h
    | cons x xs => simp [charListLt]
  | cons x xs ih =>
    cases b with
    | nil => simp [charListLt] at h
    | cons y ys =>
      simp only [charListLt] at h ⊢
      rcases lt_trichotomy x y with hxy | hxy | hxy
      · simp [hxy, lt_asymm hxy, not_lt_of_lt hxy]
      · subst hxy
        simp only [lt_irrefl, if_false] at h ⊢
        exact ih h
      · simp [hxy, lt_asymm hxy] at h

theorem charListLt_trans {a b c : List Char} (hab : charListLt a b = true)
    (hbc : charListLt b c = true) : charListLt a c = true := by
  induction a generalizing b c with
  | nil =>
    cases c with
    | nil =>
      cases b with
      | nil => simpa [charListLt] using hbc
      | cons y ys => simp [charListLt] at hbc
    | cons z zs => simp [charListLt]
  | cons x xs ih =>
    cases b with
    | nil => simp [charListLt] at hab
    | cons y ys =>
      cases c with
      | nil => simp [charListLt] at hbc
      | cons z zs =>
        simp only [charListLt] at hab hbc ⊢
        rcases lt_trichotomy x y with hxy | hxy | hxy
        · rcases lt_trichotomy y z with hyz | hyz | hyz
          · simp [lt_trans hxy hyz]
          · subst hyz; simp [hxy]
          · simp [hyz, lt_asymm hyz] at hbc
        · subst hxy
          rcases lt_trichotomy x z with hxz | hxz | hxz
          · simp [hxz]
          · subst hxz
            simp only [lt_irrefl, if_false] at hab hbc ⊢
            exact ih hab hbc
          · simp [hxz, lt_asymm hxz] at hbc
        · simp [hxy, lt_asymm hxy] at hab

theorem charListLt_eq_of_not {a b : List Char} (hab : charListLt a b = false)
    (hba : charListLt b a = false) : a = b := by
  induction a generalizing b with
  | nil =>
    cases b with
    | nil => rfl
    | cons y ys => simp [charListLt] at hab
  | cons x xs ih =>
    cases b with
    | nil => simp [charListLt] at hba
    | cons y ys =>
      simp only [charListLt] at hab hba
      rcases lt_trichotomy x y with hxy | hxy | hxy
      · simp [hxy] at hab
      · subst hxy
        simp only [lt_irrefl, if_false] at hab hba
        rw [ih hab hba]
      · simp [hxy] at hba

theorem strLt_irrefl (a : String) : strLt a a = false :=
  charListLt_irrefl a.data

theorem strLt_asymm {a b : String} (h : strLt a b = true) : strLt b a = false :=
  charListLt_asymm h

theorem strLt_trans {a b : String} {c : String} (hab : strLt a b = true)
    (hbc : strLt b c = true) : strLt a c = true :=
  charListLt_trans hab hbc

theorem strLt_eq_of_not {a b : String} (hab : strLt a b = false)
    (hba : strLt b a = false) : a = b := by
  cases a with
  | mk da =>
    cases b with
    | mk db =>
      have : da = db := charListLt_eq_of_not hab hba
      rw [this]

theorem strLt_not_trans {a b c : String} (hab : strLt b a = false)
    (hbc : strLt c b = false) : strLt c a = false := by
  by_contra h
  have hca : strLt c a = true := by
    cases hval : strLt c a with
    | false => exact absurd hval h
    | true => rfl
  by_cases hcb : c = b
  · subst hcb
    exact absurd hca (by simpa using hab)
  · by_cases hba : b = a
    · subst hba
      exact absurd hca (by simpa using hbc)
    · rcases hv : strLt b c with hbcv | hbcv
      · exact absurd (strLt_eq_of_not hbc hv) hcb
      · exact absurd (strLt_trans hv hca) (by simp [hab])

instance : IsTotal Event descOrder :=
  ⟨fun a b => Int.le_total b.created_at a.created_at⟩

instance : IsTrans Event descOrder :=
  ⟨fun _ _ _ hab hbc => le_trans hbc hab⟩

instance : IsTotal Event recentOrder := by
  constructor
  intro a b
  rcases lt_trichotomy a.created_at b.created_at with h | h | h
  · exact Or.inr (Or.inl h)
  · rcases hv : strLt b.id a.id with hval | hval
    · exact Or.inl (Or.inr ⟨h.symm, by simp [hv]⟩)
    · exact Or.inr (Or.inr ⟨h, by simp [strLt_asymm hv]⟩)
  · exact Or.inl (Or.inl h)

instance : IsTrans Event recentOrder := by
  constructor
  intro a b c hab hbc
  rcases hab with h1 | ⟨h1, h1'⟩
  · rcases hbc with h2 | ⟨h2, h2'⟩
    · exact Or.inl (lt_trans h2 h1)
    · exact Or.inl (h2 ▸ h1)
  · rcases hbc with h2 | ⟨h2, h2'⟩
    · exact Or.inl (h1 ▸ h2)
    · refine Or.inr ⟨h2.trans h1, ?_⟩
      intro h
      exact absurd (strLt_not_trans (by simpa using h1') (by simpa using h2'))
        (by simp [h])

/-! ## List helper lemmas -/

theorem uniqueList_mem {l : List String} {v : String} :
    v ∈ uniqueList l ↔ v ∈ l := by
  have key : ∀ (l2 acc : List String),
      v ∈ l2.foldl (fun acc w => if acc.contains w then acc else acc ++ [w]) acc ↔
        v ∈ acc ∨ v ∈ l2 := by
    intro l2
    induction l2 with
    | nil => intro acc; simp
    | cons x xs ih =>
      intro acc
      simp only [List.foldl_cons]
      by_cases hx : acc.contains x
      · rw [if_pos hx]
        rw [ih acc]
        have hxacc : x ∈ acc := by simpa using hx
        constructor
        · rintro (h | h)
          · exact Or.inl h
          · exact Or.inr (List.mem_cons_of_mem _ h)
        · rintro (h | h)
          · exact Or.inl h
          · rcases List.mem_cons.mp h with h | h
            · exact Or.inl (h ▸ hxacc)
            · exact Or.inr h
      · rw [if_neg hx]
        rw [ih (acc ++ [x])]
        simp only [List.mem_append, List.mem_singleton, List.mem_cons]
        tauto
  exact (key l []).trans (by simp)

theorem dedupById_spec (l : List Event) :
    (dedupById l).Pairwise (fun a b => a.id ≠ b.id) ∧
      (∀ e ∈ dedupById l, e ∈ l) ∧
      (∀ e ∈ l, ∃ x ∈ dedupById l, x.id = e.id) := by
  have key : ∀ (l2 acc : List Event), acc.Pairwise (fun a b => a.id ≠ b.id) →
      ((l2.foldl (fun acc e => if acc.any (fun x => x.id = e.id) then acc
          else acc ++ [e]) acc).Pairwise (fun a b => a.id ≠ b.id) ∧
        (∀ e ∈ l2.foldl (fun acc e => if acc.any (fun x => x.id = e.id) then acc
          else acc ++ [e]) acc, e ∈ acc ∨ e ∈ l2) ∧
        (∀ e ∈ l2, ∃ x ∈ l2.foldl (fun acc e => if acc.any (fun x => x.id = e.id) then acc
          else acc ++ [e]) acc, x.id = e.id) ∧
        (∀ e ∈ acc, e ∈ l2.foldl (fun acc e => if acc.any (fun x => x.id = e.id) then acc
          else acc ++ [e]) acc)) := by
    intro l2
    induction l2 with
    | nil =>
      intro acc hacc
      exact ⟨hacc, fun e he => Or.inl he, by simp, fun e he => he⟩
    | cons x xs ih =>
      intro acc hacc
      simp only [List.foldl_cons]
      by_cases hx : acc.any (fun y => y.id = x.id)
      · rw [if_pos hx]
        obtain ⟨h1, h2, h3, h4⟩ := ih acc hacc
        refine ⟨h1, ?_, ?_, h4⟩
        · intro e he
          rcases h2 e he with h | h
          · exact Or.inl h
          · exact Or.inr (List.mem_cons_of_mem _ h)
        · intro e he
          rcases List.mem_cons.mp he with h | h
          · subst h
            obtain ⟨y, hy, hyid⟩ : ∃ y ∈ acc, y.id = e.id := by simpa using hx
            exact ⟨y, h4 y hy, hyid⟩
          · exact h3 e h
      · rw [if_neg hx]
        have hany : ∀ y ∈ acc, y.id ≠ x.id := by simpa using hx
        have hacc2 : (acc ++ [x]).Pairwise (fun a b => a.id ≠ b.id) := by
          rw [List.pairwise_append]
          refine ⟨hacc, List.pairwise_singleton _ _, ?_⟩
          intro a ha b hb
          have hbx : b = x := List.mem_singleton.mp hb
          subst hbx
          exact hany a ha
        obtain ⟨h1, h2, h3, h4⟩ := ih (acc ++ [x]) hacc2
        refine ⟨h1, ?_, ?_, ?_⟩
        · intro e he
          rcases h2 e he with h | h
          · rcases List.mem_append.mp h with h | h
            · exact Or.inl h
            · rcases List.mem_singleton.mp h with h
              exact h ▸ Or.inr (List.mem_cons_self ..)
          · exact Or.inr (List.mem_cons_of_mem _ h)
        · intro e he
          rcases List.mem_cons.mp he with h | h
          · subst h
            exact ⟨e, h4 e (List.mem_append.mpr (Or.inr (List.mem_singleton.mpr rfl))), rfl⟩
          · exact h3 e h
        · intro e he
          exact h4 e (List.mem_append.mpr (Or.inl he))
  obtain ⟨h1, h2, h3, _⟩ := key l [] (by simp)
  refine ⟨h1, ?_, h3⟩
  intro e he
  rcases h2 e he with h | h
  · simp at h
  · exact h

theorem filterMap_length_of_isSome {α β : Type} (f : α → Option β) (l : List α)
    (h : ∀ a ∈ l, (f a).isSome) : (l.filterMap f).length = l.length := by
  induction l with
  | nil => rfl
  | cons x xs ih =>
    have hx := h x (List.mem_cons_self ..)
    rcases hfx : f x with hv | v
    · rw [hfx] at hx; simp at hx
    · simp only [List.filterMap_cons, hfx, List.length_cons]
      rw [ih (fun a ha => h a (List.mem_cons_of_mem _ ha))]

/-! ## Singleton-store computations for the replaceable/addressable save paths -/

theorem saveReplaceableEvent_empty (e : Event) : saveReplaceableEvent e [] = [e] := rfl

theorem saveAddressableEvent_empty (e : Event) : saveAddressableEvent e [] = [e] := rfl

theorem selectReplaceable_single {L : Event} {k : Nat} {p : String}
    (hk : L.kind = k) (hp : L.pubkey = p) :
    selectReplaceable [L] k p = [⟨L.id, L.created_at⟩] := by
  simp [selectReplaceable, sortDesc, hk, hp, List.insertionSort]

theorem saveLatestEvent_one (e L : Event) :
    saveLatestEvent e [⟨L.id, L.created_at⟩] [L] =
      if e.created_at < L.created_at ∨
          (L.created_at = e.created_at ∧ ¬ strLt e.id L.id) then [L] else [e] := by
  show (if e.created_at < L.created_at ∨
      (L.created_at = e.created_at ∧ ¬ strLt e.id L.id) then [L]
    else save e (deleteIds (List.map (fun r => r.id) [(⟨L.id, L.created_at⟩ : Row)]) [L])) = _
  split_ifs with h
  · rfl
  · simp [save, deleteIds]

theorem saveLatestEvent_drop (e L : Event) (store : List Event)
    (h : e.created_at < L.created_at ∨
      (L.created_at = e.created_at ∧ ¬ strLt e.id L.id)) :
    saveLatestEvent e [⟨L.id, L.created_at⟩] store = store := by
  show (if e.created_at < L.created_at ∨
      (L.created_at = e.created_at ∧ ¬ strLt e.id L.id) then store
    else save e (deleteIds (List.map (fun r => r.id)
      [(⟨L.id, L.created_at⟩ : Row)]) store)) = store
  rw [if_pos h]

theorem saveReplaceableEvent_single (e L : Event)
    (hk : L.kind = e.kind) (hp : L.pubkey = e.pubkey) :
    saveReplaceableEvent e [L] =
      if e.created_at < L.created_at ∨
          (L.created_at = e.created_at ∧ ¬ strLt e.id L.id) then [L] else [e] := by
  unfold saveReplaceableEvent
  rw [selectReplaceable_single hk hp]
  exact saveLatestEvent_one e L

theorem identifierOf_dtag (e : Event) (i : String) (h : e.tags = [["d", i]]) :
    identifierOf e = i := by
  simp [identifierOf, tagValue, findTag, h, List.find?]

theorem storedTagValues_dtag (e : Event) (i : String) (h : e.tags = [["d", i]]) :
    storedTagValues e "d" = [i] := by
  have hidx : isIndexedTagName "d" = true := rfl
  simp [storedTagValues, hidx, h, List.filterMap, uniqueList]

theorem selectAddressable_single {L : Event} {k : Nat} {p : String} {i : String}
    (hk : L.kind = k) (hp : L.pubkey = p) (ht : L.tags = [["d", i]]) :
    selectAddressable [L] k p i = [⟨L.id, L.created_at⟩] := by
  simp [selectAddressable, sortDesc, hk, hp, storedTagValues_dtag L i ht,
    List.insertionSort]

theorem saveAddressableEvent_single (e L : Event) (i : String)
    (hk : L.kind = e.kind) (hp : L.pubkey = e.pubkey)
    (hte : e.tags = [["d", i]]) (htL : L.tags = [["d", i]]) :
    saveAddressableEvent e [L] =
      if e.created_at < L.created_at ∨
          (L.created_at = e.created_at ∧ ¬ strLt e.id L.id) then [L] else [e] := by
  unfold saveAddressableEvent
  rw [identifierOf_dtag e i hte, selectAddressable_single hk hp htL]
  exact saveLatestEvent_one e L

/-- Shared case analysis: any save path computing `#saveLatestEvent` on a pair
of same-key events is a deterministic, commutative latest-wins resolution. -/
theorem saveLatest_pair_cases (A B : Event) (hid : A.id = B.id → A = B)
    (f : Event → List Event → List Event)
    (h0A : f A [] = [A]) (h0B : f B [] = [B])
    (hBA : f B [A] = if B.created_at < A.created_at ∨
        (A.created_at = B.created_at ∧ ¬ strLt B.id A.id) then [A] else [B])
    (hAB : f A [B] = if A.created_at < B.created_at ∨
        (B.created_at = A.created_at ∧ ¬ strLt A.id B.id) then [B] else [A]) :
    f B (f A []) = f A (f B []) ∧
    (B.created_at < A.created_at → f B (f A []) = [A]) ∧
    (A.created_at < B.created_at → f B (f A []) = [B]) ∧
    (A.created_at = B.created_at → strLt A.id B.id = true → f B (f A []) = [A]) ∧
    (A.created_at = B.created_at → strLt B.id A.id = true → f B (f A []) = [B]) := by
  rw [h0A, h0B, hBA, hAB]
  refine ⟨?_, ?_, ?_, ?_, ?_⟩
  · rcases lt_trichotomy A.created_at B.created_at with hca | hca | hca
    · rw [if_neg ?_, if_pos (Or.inl hca)]
      rintro (h | ⟨h1, -⟩) <;> omega
    · rcases hA : strLt A.id B.id with hv | hv
      · rcases hB : strLt B.id A.id with hw | hw
        · have hE : A = B := hid (strLt_eq_of_not hA hB)
          subst hE
          rfl
        · rw [if_neg ?_, if_pos (Or.inr ⟨hca.symm, by simp [hA]⟩)]
          rintro (h | ⟨h1, h2⟩)
          · omega
          · exact h2 rfl
      · have hB : strLt B.id A.id = false := strLt_asymm hA
        rw [if_pos (Or.inr ⟨hca, by simp [hB]⟩), if_neg ?_]
        rintro (h | ⟨h1, h2⟩)
        · omega
        · exact h2 rfl
    · rw [if_pos (Or.inl hca), if_neg ?_]
      rintro (h | ⟨h1, -⟩) <;> omega
  · intro h
    rw [if_pos (Or.inl h)]
  · intro h
    rw [if_neg ?_]
    rintro (hc | ⟨hc, -⟩) <;> omega
  · intro hca hA
    have hB : strLt B.id A.id = false := strLt_asymm hA
    rw [if_pos (Or.inr ⟨hca, by simp [hB]⟩)]
  · intro hca hB
    rw [if_neg ?_]
    rintro (hc | ⟨hc, h2⟩)
    · omega
    · exact h2 hB

/-! ## Claim theorems -/

/-- C1: Latest-Wins is a deterministic, commutative total order.  For two
replaceable (or addressable, same `d` identifier) events with the same logical
key, ingesting A then B leaves the same stored state as ingesting B then A;
the event with the larger `created_at` is the stored winner, and on an exact
`created_at` tie the event whose id is lexicographically smaller wins. -/
theorem C1_latestWins_total_commutative (A B : Event)
    (hk : B.kind = A.kind) (hp : B.pubkey = A.pubkey)
    (hid : A.id = B.id → A = B) :
    (saveReplaceableEvent B (saveReplaceableEvent A []) =
        saveReplaceableEvent A (saveReplaceableEvent B []) ∧
      (B.created_at < A.created_at →
        saveReplaceableEvent B (saveReplaceableEvent A []) = [A]) ∧
      (A.created_at < B.created_at →
        saveReplaceableEvent B (saveReplaceableEvent A []) = [B]) ∧
      (A.created_at = B.created_at → strLt A.id B.id = true →
        saveReplaceableEvent B (saveReplaceableEvent A []) = [A]) ∧
      (A.created_at = B.created_at → strLt B.id A.id = true →
        saveReplaceableEvent B (saveReplaceableEvent A []) = [B])) ∧
    (∀ i : String, A.tags = [["d", i]] → B.tags = [["d", i]] →
      (saveAddressableEvent B (saveAddressableEvent A []) =
          saveAddressableEvent A (saveAddressableEvent B []) ∧
        (B.created_at < A.created_at →
          saveAddressableEvent B (saveAddressableEvent A []) = [A]) ∧
        (A.created_at < B.created_at →
          saveAddressableEvent B (saveAddressableEvent A []) = [B]) ∧
        (A.created_at = B.created_at → strLt A.id B.id = true →
          saveAddressableEvent B (saveAddressableEvent A []) = [A]) ∧
        (A.created_at = B.created_at → strLt B.id A.id = true →
          saveAddressableEvent B (saveAddressableEvent A []) = [B]))) := by
  constructor
  · exact saveLatest_pair_cases A B hid saveReplaceableEvent
      (saveReplaceableEvent_empty A) (saveReplaceableEvent_empty B)
      (saveReplaceableEvent_single B A hk.symm hp.symm)
      (saveReplaceableEvent_single A B hk hp)
  · intro i htA htB
    exact saveLatest_pair_cases A B hid saveAddressableEvent
      (saveAddressableEvent_empty A) (saveAddressableEvent_empty B)
      (saveAddressableEvent_single B A i hk.symm hp.symm htB htA)
      (saveAddressableEvent_single A B i hk hp htA htB)

/-- Witness for C1 at concrete events: equal `created_at`, ids "aa" < "bb";
both orders store the smaller-id event. -/
theorem C1_latestWins_total_commutative_witness :
    saveReplaceableEvent (⟨"bb", "p1", 100, 0, [], "", "s"⟩ : Event)
        (saveReplaceableEvent (⟨"aa", "p1", 100, 0, [], "", "s"⟩ : Event) []) =
      [⟨"aa", "p1", 100, 0, [], "", "s"⟩] ∧
    saveReplaceableEvent (⟨"bb", "p1", 100, 0, [], "", "s"⟩ : Event)
        (saveReplaceableEvent (⟨"aa", "p1", 100, 0, [], "", "s"⟩ : Event) []) =
      saveReplaceableEvent (⟨"aa", "p1", 100, 0, [], "", "s"⟩ : Event)
        (saveReplaceableEvent (⟨"bb", "p1", 100, 0, [], "", "s"⟩ : Event) []) := by
  have h := C1_latestWins_total_commutative
    (⟨"aa", "p1", 100, 0, [], "", "s"⟩ : Event)
    (⟨"bb", "p1", 100, 0, [], "", "s"⟩ : Event)
    rfl rfl (fun hd => absurd hd (by decide))
  exact ⟨h.1.2.2.2.1 rfl (by decide), h.1.1⟩

/-- Number of OK frames in a frame list. -/
def okCount (frames : List Frame) : Nat :=
  (frames.filter (fun fr => match fr with | Frame.ok _ _ _ => true | _ => false)).length

/-- C2 (amended): every EVENT submission that passes `verifyEvent` receives
exactly one OK frame on every handling path; a submission failing validation
receives a NOTICE frame and no OK frame. -/
theorem C2_one_ok_frame (cfg : Config) (challenge : String) (now : Int)
    (conn : Connection) (subs : List (String × List Filter)) (e : Event)
    (store : List Event) :
    okCount (handleEvent cfg true challenge now conn subs e store).frames = 1 ∧
    (handleEvent cfg false challenge now conn subs e store).frames =
      [Frame.notice "invalid: event"] := by
  refine ⟨?_, by simp [handleEvent]⟩
  simp only [handleEvent]
  split_ifs <;> simp_all [okCount]

/-- Counterexample to C2 as stated: an EVENT whose signature validation fails
receives zero OK frames (only a NOTICE), so not every submission path yields
an OK frame. -/
theorem C2_invalid_event_no_ok :
    okCount (handleEvent defaultConfig false "c" 0 ⟨"c1", none, "u", none, []⟩ []
        (⟨"aa", "p1", 100, 1, [], "", "s"⟩ : Event) []).frames = 0 ∧
    (handleEvent defaultConfig false "c" 0 ⟨"c1", none, "u", none, []⟩ []
        (⟨"aa", "p1", 100, 1, [], "", "s"⟩ : Event) []).frames =
      [Frame.notice "invalid: event"] :=
  ⟨rfl, rfl⟩

/-- C4: an incoming replaceable event that does not win against the current
stored latest (in particular, an exact resubmission of the stored latest) is a
no-op on storage and is acknowledged with OK true. -/
theorem C4_noop_resubmission_success (cfg : Config) (challenge : String)
    (now : Int) (conn : Connection) (subs : List (String × List Filter))
    (e L : Event) (store : List Event)
    (hauth : conn.auth.isSome = true)
    (hpk : conn.pubkeys.contains e.pubkey = true)
    (hnowin : e.created_at < L.created_at ∨
      (e.created_at = L.created_at ∧ strLt e.id L.id = false)) :
    (isReplaceableKind e.kind = true →
      store.filter (fun x => x.kind = e.kind && x.pubkey = e.pubkey) = [L] →
      saveReplaceableEvent e store = store ∧
        (handleEvent cfg true challenge now conn subs e store).store = store ∧
        (handleEvent cfg true challenge now conn subs e store).frames =
          [Frame.ok e.id true ""]) ∧
    (∀ i : String, isAddressableKind e.kind = true → e.tags = [["d", i]] →
      store.filter (fun x => x.kind = e.kind && x.pubkey = e.pubkey &&
        (storedTagValues x "d").contains i) = [L] →
      saveAddressableEvent e store = store ∧
        (handleEvent cfg true challenge now conn subs e store).store = store ∧
        (handleEvent cfg true challenge now conn subs e store).frames =
          [Frame.ok e.id true ""]) := by
  obtain ⟨s, hs⟩ := Option.isSome_iff_exists.mp hauth
  have hmem : e.pubkey ∈ conn.pubkeys := by simpa using hpk
  have hdrop : saveLatestEvent e [⟨L.id, L.created_at⟩] store = store := by
    refine saveLatestEvent_drop e L store ?_
    rcases hnowin with h | ⟨h1, h2⟩
    · exact Or.inl h
    · exact Or.inr ⟨h1.symm, by simp [h2]⟩
  constructor
  · intro hkind hsel
    have hsave : saveReplaceableEvent e store = store := by
      unfold saveReplaceableEvent selectReplaceable
      rw [hsel]
      have hsort : sortDesc [L] = [L] := by
        simp [sortDesc, List.insertionSort]
      rw [hsort]
      exact hdrop
    refine ⟨hsave, ?_, ?_⟩ <;> simp [handleEvent, hs, hmem, hkind, hsave]
  · intro i hkind htags hsel
    have hrep : isReplaceableKind e.kind = false := by
      have hrange : 30000 ≤ e.kind ∧ e.kind < 40000 := by
        simpa [isAddressableKind] using hkind
      simp only [isReplaceableKind]
      simp only [Bool.or_eq_false_iff, Bool.and_eq_false_iff]
      refine ⟨⟨by simp; omega, by simp; omega⟩, ?_⟩
      right
      simp
      omega
    have hd : hasDTag e = true := by simp [hasDTag, htags]
    have hsave : saveAddressableEvent e store = store := by
      unfold saveAddressableEvent selectAddressable
      rw [identifierOf_dtag e i htags, hsel]
      have hsort : sortDesc [L] = [L] := by
        simp [sortDesc, List.insertionSort]
      rw [hsort]
      exact hdrop
    refine ⟨hsave, ?_, ?_⟩ <;>
      simp [handleEvent, hs, hmem, hkind, hrep, hd, hsave]

/-- Witness for C4: resubmitting the exact stored latest replaceable event and
the exact stored latest addressable event, both no-ops acknowledged OK true. -/
theorem C4_noop_resubmission_success_witness :
    ((handleEvent defaultConfig true "ch" 0
        ⟨"c1", none, "u", some ⟨"ch", 0⟩, ["p1"]⟩ []
        (⟨"aa", "p1", 100, 0, [], "", "s"⟩ : Event)
        [⟨"aa", "p1", 100, 0, [], "", "s"⟩]).store =
      [(⟨"aa", "p1", 100, 0, [], "", "s"⟩ : Event)] ∧
     (handleEvent defaultConfig true "ch" 0
        ⟨"c1", none, "u", some ⟨"ch", 0⟩, ["p1"]⟩ []
        (⟨"aa", "p1", 100, 0, [], "", "s"⟩ : Event)
        [⟨"aa", "p1", 100, 0, [], "", "s"⟩]).frames = [Frame.ok "aa" true ""]) ∧
    ((handleEvent defaultConfig true "ch" 0
        ⟨"c1", none, "u", some ⟨"ch", 0⟩, ["p1"]⟩ []
        (⟨"dd", "p1", 100, 30000, [["d", "x"]], "", "s"⟩ : Event)
        [⟨"dd", "p1", 100, 30000, [["d", "x"]], "", "s"⟩]).store =
      [(⟨"dd", "p1", 100, 30000, [["d", "x"]], "", "s"⟩ : Event)] ∧
     (handleEvent defaultConfig true "ch" 0
        ⟨"c1", none, "u", some ⟨"ch", 0⟩, ["p1"]⟩ []
        (⟨"dd", "p1", 100, 30000, [["d", "x"]], "", "s"⟩ : Event)
        [⟨"dd", "p1", 100, 30000, [["d", "x"]], "", "s"⟩]).frames =
      [Frame.ok "dd" true ""]) := by
  constructor
  · have h := (C4_noop_resubmission_success defaultConfig "ch" 0
      ⟨"c1", none, "u", some ⟨"ch", 0⟩, ["p1"]⟩ []
      (⟨"aa", "p1", 100, 0, [], "", "s"⟩ : Event)
      (⟨"aa", "p1", 100, 0, [], "", "s"⟩ : Event)
      [⟨"aa", "p1", 100, 0, [], "", "s"⟩]
      rfl rfl (Or.inr ⟨rfl, by decide⟩)).1 rfl (by decide)
    exact ⟨h.2.1, h.2.2⟩
  · have h := (C4_noop_resubmission_success defaultConfig "ch" 0
      ⟨"c1", none, "u", some ⟨"ch", 0⟩, ["p1"]⟩ []
      (⟨"dd", "p1", 100, 30000, [["d", "x"]], "", "s"⟩ : Event)
      (⟨"dd", "p1", 100, 30000, [["d", "x"]], "", "s"⟩ : Event)
      [⟨"dd", "p1", 100, 30000, [["d", "x"]], "", "s"⟩]
      rfl rfl (Or.inr ⟨rfl, by decide⟩)).2 "x" rfl rfl (by decide)
    exact ⟨h.2.1, h.2.2⟩

/-- C10: an AUTH event whose pubkey is already authorized is acknowledged as a
duplicate success and leaves the connection unchanged, regardless of challenge
state, cap, registration, or arrival time — the duplicate check runs first. -/
theorem C10_duplicate_auth_first (cfg : Config) (conn : Connection) (e : Event)
    (registered : Bool) (now : Int)
    (hdup : conn.pubkeys.contains e.pubkey = true) :
    handleAuth cfg conn e registered now =
      ⟨[Frame.ok e.id true "duplicate: already authenticated"], conn⟩ := by
  have hmem : e.pubkey ∈ conn.pubkeys := by simpa using hdup
  simp [handleAuth, hmem]

/-- Witness for C10: cap already full, no outstanding challenge, unregistered,
arbitrary arrival time — still the duplicate success. -/
theorem C10_duplicate_auth_first_witness :
    handleAuth defaultConfig
        ⟨"c1", none, "u", none, ["p1", "p2", "p3", "p4", "p5"]⟩
        (⟨"ii", "p1", 0, 22242, [], "", "s"⟩ : Event) false 999999999 =
      ⟨[Frame.ok "ii" true "duplicate: already authenticated"],
        ⟨"c1", none, "u", none, ["p1", "p2", "p3", "p4", "p5"]⟩⟩ :=
  C10_duplicate_auth_first defaultConfig
    ⟨"c1", none, "u", none, ["p1", "p2", "p3", "p4", "p5"]⟩
    (⟨"ii", "p1", 0, 22242, [], "", "s"⟩ : Event) false 999999999 (by decide)

/-- C6 (amended): an AUTH event is accepted against a challenge issued at
`challengedAt` only if it arrives no later than `challengedAt + timeout`
(milliseconds); arriving strictly after that instant is rejected even with a
correct challenge, relay URL, and kind. -/
theorem C6_auth_expiry (cfg : Config) (e : Event) (auth : Session) (url : String)
    (now : Int) :
    (Challenge.validate cfg e auth url now = true →
      now ≤ auth.challengedAt + (cfg.auth_timeout : Int) * 1000) ∧
    (auth.challengedAt + (cfg.auth_timeout : Int) * 1000 < now →
      Challenge.validate cfg e auth url now = false) := by
  constructor
  · intro hv
    simp only [Challenge.validate] at hv
    split_ifs at hv with h1 h2 h3 <;> omega
  · intro hlt
    simp only [Challenge.validate]
    split_ifs <;> rfl

/-- Witness for C6: a correct AUTH event arriving exactly at the deadline is
accepted, and the theorem bounds its arrival time. -/
theorem C6_auth_expiry_witness :
    (600000 : Int) ≤ (0 : Int) + ((defaultConfig.auth_timeout : Int)) * 1000 :=
  (C6_auth_expiry defaultConfig
    (⟨"hh", "p9", 0, 22242, [["challenge", "ch"], ["relay", "wss://r"]], "", "s"⟩ : Event)
    ⟨"ch", 0⟩ "wss://r" 600000).1 (by decide)

/-- Counterexample to C6 as stated: an AUTH event arriving exactly at
`challengedAt + timeout` — not strictly before it — is still accepted. -/
theorem C6_boundary_accepted :
    Challenge.validate defaultConfig
        (⟨"hh", "p9", 0, 22242, [["challenge", "ch"], ["relay", "wss://r"]], "", "s"⟩ : Event)
        ⟨"ch", 0⟩ "wss://r" 600000 = true ∧
    ¬ ((600000 : Int) < (0 : Int) + ((defaultConfig.auth_timeout : Int)) * 1000) :=
  ⟨by decide, by decide⟩

/-- C8: an accepted event of an ephemeral kind makes no repository call and
leaves storage unchanged, yet is acknowledged with OK true and is broadcast to
every live subscription with a matching filter. -/
theorem C8_ephemeral_broadcast_only (cfg : Config) (challenge : String)
    (now : Int) (conn : Connection) (subs : List (String × List Filter))
    (e : Event) (store : List Event)
    (hauth : conn.auth.isSome = true)
    (hpk : conn.pubkeys.contains e.pubkey = true)
    (heph : isEphemeralKind e.kind = true) :
    (handleEvent cfg true challenge now conn subs e store).calls = [] ∧
    (handleEvent cfg true challenge now conn subs e store).store = store ∧
    (handleEvent cfg true challenge now conn subs e store).frames =
      [Frame.ok e.id true ""] ∧
    ∀ p ∈ subs, (∃ f ∈ p.2, broadcastable f e = true) →
      p.1 ∈ (handleEvent cfg true challenge now conn subs e store).delivered := by
  have hrange : 20000 ≤ e.kind ∧ e.kind < 30000 := by
    simpa [isEphemeralKind] using heph
  have hrep : isReplaceableKind e.kind = false := by
    simp only [isReplaceableKind]
    simp only [Bool.or_eq_false_iff, Bool.and_eq_false_iff]
    refine ⟨⟨by simp; omega, by simp; omega⟩, ?_⟩
    right
    simp
    omega
  have haddr : isAddressableKind e.kind = false := by
    simp only [isAddressableKind, Bool.and_eq_false_iff]
    left
    simp
    omega
  obtain ⟨s, hs⟩ := Option.isSome_iff_exists.mp hauth
  have hmem : e.pubkey ∈ conn.pubkeys := by simpa using hpk
  refine ⟨?_, ?_, ?_, ?_⟩ <;>
    simp only [handleEvent, hs, heph, hrep, haddr] <;>
    simp [hmem, broadcastRun]
  intro sid fs hmemsub f hf hb
  exact ⟨fs, hmemsub, f, hf, hb⟩

/-- Witness for C8: a kind-20001 event on an authorized connection with one
matching live subscription. -/
theorem C8_ephemeral_broadcast_only_witness :
    (handleEvent defaultConfig true "ch" 0
        ⟨"c1", none, "u", some ⟨"ch", 0⟩, ["p1"]⟩
        [("s1", [{ kinds := some [20001] }])]
        (⟨"gg", "p1", 10, 20001, [], "", "s"⟩ : Event) []).calls = [] ∧
    (handleEvent defaultConfig true "ch" 0
        ⟨"c1", none, "u", some ⟨"ch", 0⟩, ["p1"]⟩
        [("s1", [{ kinds := some [20001] }])]
        (⟨"gg", "p1", 10, 20001, [], "", "s"⟩ : Event) []).store = [] ∧
    "s1" ∈ (handleEvent defaultConfig true "ch" 0
        ⟨"c1", none, "u", some ⟨"ch", 0⟩, ["p1"]⟩
        [("s1", [{ kinds := some [20001] }])]
        (⟨"gg", "p1", 10, 20001, [], "", "s"⟩ : Event) []).delivered := by
  have h := C8_ephemeral_broadcast_only defaultConfig "ch" 0
    ⟨"c1", none, "u", some ⟨"ch", 0⟩, ["p1"]⟩
    [("s1", [{ kinds := some [20001] }])]
    (⟨"gg", "p1", 10, 20001, [], "", "s"⟩ : Event) [] rfl rfl rfl
  exact ⟨h.1, h.2.1, h.2.2.2 ("s1", [{ kinds := some [20001] }]) (by simp)
    ⟨{ kinds := some [20001] }, by simp, by decide⟩⟩

/-- C7: an addressable-kind event without a string-valued `d` tag is rejected
with a structural OK-false and nothing is persisted; an addressable event whose
`d` tag value is the empty string is accepted, keyed by the empty-string
identifier, and does not disturb stored events whose `d` values do not contain
the empty string. -/
theorem C7_addressable_dtag_boundary (cfg : Config) (challenge : String)
    (now : Int) (conn : Connection) (subs : List (String × List Filter))
    (e : Event) (store : List Event)
    (hauth : conn.auth.isSome = true)
    (hpk : conn.pubkeys.contains e.pubkey = true)
    (haddr : isAddressableKind e.kind = true) :
    (hasDTag e = false →
      handleEvent cfg true challenge now conn subs e store =
        ⟨[Frame.ok e.id false "invalid: addressable event requires d tag"],
          store, conn, [], []⟩) ∧
    (e.tags = [["d", ""]] →
      (handleEvent cfg true challenge now conn subs e store).calls =
          [RepoCall.saveAddressable] ∧
        (handleEvent cfg true challenge now conn subs e store).frames =
          [Frame.ok e.id true ""] ∧
        identifierOf e = "" ∧
        ((∀ y ∈ store, (storedTagValues y "d").contains "" = false) →
          (handleEvent cfg true challenge now conn subs e store).store =
            save e store)) := by
  have hrange : 30000 ≤ e.kind ∧ e.kind < 40000 := by
    simpa [isAddressableKind] using haddr
  have hrep : isReplaceableKind e.kind = false := by
    simp only [isReplaceableKind]
    simp only [Bool.or_eq_false_iff, Bool.and_eq_false_iff]
    refine ⟨⟨by simp; omega, by simp; omega⟩, ?_⟩
    right
    simp
    omega
  obtain ⟨s, hs⟩ := Option.isSome_iff_exists.mp hauth
  have hmem : e.pubkey ∈ conn.pubkeys := by simpa using hpk
  constructor
  · intro hnod
    simp [handleEvent, hs, hmem, hrep, haddr, hnod]
  · intro htags
    have hd : hasDTag e = true := by simp [hasDTag, htags]
    have hidf : identifierOf e = "" := identifierOf_dtag e "" htags
    refine ⟨?_, ?_, hidf, ?_⟩
    · simp [handleEvent, hs, hmem, hrep, haddr, hd]
    · simp [handleEvent, hs, hmem, hrep, haddr, hd]
    · intro hsel
      have hfilter : store.filter (fun x =>
          x.kind = e.kind && x.pubkey = e.pubkey &&
            (storedTagValues x "d").contains "") = [] := by
        rw [List.filter_eq_nil_iff]
        intro a ha
        intro hcontra
        simp only [Bool.and_eq_true] at hcontra
        exact absurd (hsel a ha) (by simpa using hcontra.2)
      have hselect : selectAddressable store e.kind e.pubkey "" = [] := by
        unfold selectAddressable
        rw [hfilter]
        rfl
      have hsave : saveAddressableEvent e store = save e store := by
        unfold saveAddressableEvent
        rw [hidf, hselect]
        rfl
      simp [handleEvent, hs, hmem, hrep, haddr, hd, hsave]

/-- Witness for C7: a kind-30000 event with no `d` tag is rejected without
persistence; one with `d` value "" is stored alongside an existing same-key
event whose `d` value is "x". -/
theorem C7_addressable_dtag_boundary_witness :
    handleEvent defaultConfig true "ch" 0
        ⟨"c1", none, "u", some ⟨"ch", 0⟩, ["p1"]⟩ []
        (⟨"nn", "p1", 10, 30000, [], "", "s"⟩ : Event)
        [⟨"ee", "p1", 20, 30000, [["d", "x"]], "", "s"⟩] =
      ⟨[Frame.ok "nn" false "invalid: addressable event requires d tag"],
        [⟨"ee", "p1", 20, 30000, [["d", "x"]], "", "s"⟩],
        ⟨"c1", none, "u", some ⟨"ch", 0⟩, ["p1"]⟩, [], []⟩ ∧
    (handleEvent defaultConfig true "ch" 0
        ⟨"c1", none, "u", some ⟨"ch", 0⟩, ["p1"]⟩ []
        (⟨"dd", "p1", 10, 30000, [["d", ""]], "", "s"⟩ : Event)
        [⟨"ee", "p1", 20, 30000, [["d", "x"]], "", "s"⟩]).store =
      save (⟨"dd", "p1", 10, 30000, [["d", ""]], "", "s"⟩ : Event)
        [⟨"ee", "p1", 20, 30000, [["d", "x"]], "", "s"⟩] := by
  constructor
  · exact (C7_addressable_dtag_boundary defaultConfig "ch" 0
      ⟨"c1", none, "u", some ⟨"ch", 0⟩, ["p1"]⟩ []
      (⟨"nn", "p1", 10, 30000, [], "", "s"⟩ : Event)
      [⟨"ee", "p1", 20, 30000, [["d", "x"]], "", "s"⟩] rfl rfl rfl).1 rfl
  · exact ((C7_addressable_dtag_boundary defaultConfig "ch" 0
      ⟨"c1", none, "u", some ⟨"ch", 0⟩, ["p1"]⟩ []
      (⟨"dd", "p1", 10, 30000, [["d", ""]], "", "s"⟩ : Event)
      [⟨"ee", "p1", 20, 30000, [["d", "x"]], "", "s"⟩] rfl rfl rfl).2 rfl).2.2.2
      (by decide)

/-- The spec-side reference predicate for deletion: deletion event `d` carries
an `e` tag whose value is the id `i`. -/
def referencesId (d : Event) (i : String) : Bool :=
  d.tags.any (fun t => t.head? = some "e" && t.get? 1 = some i)

/-- C5: `deleteBy` removes a stored event X iff X is referenced by an `e` tag
of the deletion event, X's stored pubkey equals the deletion event's pubkey
and X's kind is not itself the deletion kind; everything else — including
missing or non-matching references — is left exactly in place. -/
theorem C5_deleteBy_semantics (d : Event) (store : List Event)
    (hnodup : store.Pairwise (fun a b => a.id ≠ b.id))
    (hhex : ∀ x ∈ store, isHex64 x.id = true) :
    deleteBy d store = store.filter (fun x =>
      !(referencesId d x.id && x.pubkey = d.pubkey && x.kind ≠ EventDeletion)) := by
  have F1 : ∀ i, isHex64 i = true →
      (i ∈ deletionTargetIds d ↔ referencesId d i = true) := by
    intro i hi
    unfold deletionTargetIds
    rw [uniqueList_mem]
    constructor
    · intro h
      obtain ⟨t, ht, hval⟩ := List.mem_filterMap.mp h
      obtain ⟨htag, hcond⟩ := List.mem_filter.mp ht
      simp only [Bool.and_eq_true] at hcond
      refine List.any_eq_true.mpr ⟨t, htag, ?_⟩
      have h1 : t.head? = some "e" := by simpa using hcond.1
      simp only [Bool.and_eq_true, decide_eq_true_eq]
      exact ⟨h1, hval⟩
    · intro h
      obtain ⟨t, ht, hp⟩ := List.any_eq_true.mp h
      simp only [Bool.and_eq_true, decide_eq_true_eq] at hp
      refine List.mem_filterMap.mpr ⟨t, List.mem_filter.mpr ⟨ht, ?_⟩, hp.2⟩
      have hp2 : t[1]? = some i := by simpa using hp.2
      simp [hp.1, hp2, hi]
  have Inj : ∀ x ∈ store, ∀ y ∈ store, x.id = y.id → x = y := by
    intro x hx y hy hxy
    by_contra hne
    exact absurd hxy
      (List.Pairwise.forall (fun a b h => Ne.symm h) hnodup hx hy hne)
  unfold deleteBy
  by_cases hemp : (deletionTargetIds d).isEmpty = true
  · rw [if_pos hemp]
    symm
    rw [List.filter_eq_self]
    intro x hx
    have href : referencesId d x.id = false := by
      cases hr : referencesId d x.id
      · rfl
      · have hmem := (F1 x.id (hhex x hx)).mpr hr
        rw [List.isEmpty_iff.mp hemp] at hmem
        simp at hmem
    simp [href]
  · rw [if_neg hemp]
    have hkey : ∀ x ∈ store,
        ((((store.filter (fun y => (deletionTargetIds d).contains y.id)).filter
          (fun y => y.pubkey = d.pubkey && y.kind ≠ EventDeletion)).map
          (fun y => y.id)).contains x.id) =
        (referencesId d x.id && x.pubkey = d.pubkey &&
          decide (x.kind ≠ EventDeletion)) := by
      intro x hx
      have : (x.id ∈ ((store.filter (fun y => (deletionTargetIds d).contains y.id)).filter
          (fun y => y.pubkey = d.pubkey && y.kind ≠ EventDeletion)).map
          (fun y => y.id)) ↔
          (referencesId d x.id = true ∧ x.pubkey = d.pubkey ∧ x.kind ≠ EventDeletion) := by
        constructor
        · intro h
          obtain ⟨y, hy, hyid⟩ := List.mem_map.mp h
          obtain ⟨hy1, hy2⟩ := List.mem_filter.mp hy
          obtain ⟨hy3, hy4⟩ := List.mem_filter.mp hy1
          have hxy : y = x := Inj y hy3 x hx hyid
          subst hxy
          simp only [Bool.and_eq_true, decide_eq_true_eq] at hy2 hy4
          exact ⟨(F1 y.id (hhex y hy3)).mp (by simpa using hy4), hy2.1, hy2.2⟩
        · rintro ⟨h1, h2, h3⟩
          refine List.mem_map.mpr ⟨x, List.mem_filter.mpr
            ⟨List.mem_filter.mpr ⟨hx, ?_⟩, ?_⟩, rfl⟩
          · simpa using (F1 x.id (hhex x hx)).mpr h1
          · simp [h2, h3]
      have hbool : ∀ (a b : Bool), (a = true ↔ b = true) → a = b := by
        intro a b hab
        cases a <;> cases b <;> simp_all
      apply hbool
      constructor
      · intro hc
        have hm := this.mp (List.elem_iff.mp hc)
        simp only [Bool.and_eq_true, decide_eq_true_eq]
        exact ⟨⟨hm.1, hm.2.1⟩, hm.2.2⟩
      · intro hc
        simp only [Bool.and_eq_true, decide_eq_true_eq] at hc
        exact List.elem_iff.mpr (this.mpr ⟨hc.1.1, hc.1.2, hc.2⟩)
    unfold deleteIds
    by_cases hdle : (((store.filter (fun y => (deletionTargetIds d).contains y.id)).filter
        (fun y => y.pubkey = d.pubkey && y.kind ≠ EventDeletion)).map
        (fun y => y.id)).isEmpty = true
    · rw [if_pos hdle]
      symm
      rw [List.filter_eq_self]
      intro x hx
      have hfalse : (referencesId d x.id && x.pubkey = d.pubkey &&
          decide (x.kind ≠ EventDeletion)) = false := by
        rw [← hkey x hx, List.isEmpty_iff.mp hdle]
        rfl
      simp only [Bool.not_eq_true']
      simpa using hfalse
    · rw [if_neg hdle]
      apply List.filter_congr
      intro x hx
      rw [hkey x hx]

/-- Witness for C5 at a concrete store: the matching target is deleted, the
pubkey-mismatched target and the deletion-kind target survive. -/
theorem C5_deleteBy_semantics_witness :
    deleteBy
        (⟨String.mk (List.replicate 64 (Char.ofNat 102)), "p1", 30, 5,
          [["e", String.mk (List.replicate 64 (Char.ofNat 97))],
           ["e", String.mk (List.replicate 64 (Char.ofNat 98))],
           ["e", String.mk (List.replicate 64 (Char.ofNat 99))]], "", "s"⟩ : Event)
        [⟨String.mk (List.replicate 64 (Char.ofNat 97)), "p1", 5, 1, [], "", "s"⟩,
         ⟨String.mk (List.replicate 64 (Char.ofNat 98)), "p2", 5, 1, [], "", "s"⟩,
         ⟨String.mk (List.replicate 64 (Char.ofNat 99)), "p1", 5, 5, [], "", "s"⟩] =
      [⟨String.mk (List.replicate 64 (Char.ofNat 98)), "p2", 5, 1, [], "", "s"⟩,
       ⟨String.mk (List.replicate 64 (Char.ofNat 99)), "p1", 5, 5, [], "", "s"⟩] := by
  rw [C5_deleteBy_semantics _ _ (by decide) (by decide)]
  rfl

/-! ## Sortedness and length facts about the find path -/

theorem sortEvents_pairwise (l : List Event) :
    (sortEvents l).Pairwise (fun a b => b.created_at ≤ a.created_at) := by
  have h := List.sorted_insertionSort recentOrder l
  refine List.Pairwise.imp ?_ h
  intro a b hab
  rcases hab with h1 | ⟨h1, _⟩
  · exact le_of_lt h1
  · exact le_of_eq h1

theorem sortEvents_perm (l : List Event) : List.Perm (sortEvents l) l :=
  List.perm_insertionSort recentOrder l

theorem sortDesc_perm (l : List Event) : List.Perm (sortDesc l) l :=
  List.perm_insertionSort descOrder l

theorem findByIds_pairwise (store : List Event) (ids : List String) :
    (findByIds store ids).Pairwise (fun a b => b.created_at ≤ a.created_at) :=
  sortEvents_pairwise _

theorem findByIds_length_le (store : List Event) (ids : List String) :
    (findByIds store ids).length ≤ ids.length := by
  unfold findByIds
  calc (sortEvents (ids.filterMap (fun i => store.find? (fun x => x.id = i)))).length
      = (ids.filterMap (fun i => store.find? (fun x => x.id = i))).length :=
        (sortEvents_perm _).length_eq
    _ ≤ ids.length := List.length_filterMap_le _ _

/-- C3 (amended): `find` returns results ordered by `created_at` descending on
both paths, and bounds the result count: on the ids-only point-lookup path
(eligible only up to `max_limit` ids) by `max_limit`, and on the query path by
`filter.limit` defaulted to `default_limit` when absent — the query path
applies no `max_limit` cap. -/
theorem C3_find_order_and_limit (cfg : Config) (store : List Event) (f : Filter) :
    (find cfg store f).Pairwise (fun a b => b.created_at ≤ a.created_at) ∧
    (isIdsOnly f ∧ (f.ids.getD []).length ≤ cfg.limitation.max_limit →
      (find cfg store f).length ≤ cfg.limitation.max_limit) ∧
    (¬ (isIdsOnly f ∧ (f.ids.getD []).length ≤ cfg.limitation.max_limit) →
      (find cfg store f).length ≤ f.limit.getD cfg.default_limit) := by
  refine ⟨?_, ?_, ?_⟩
  · unfold find
    split_ifs
    · exact findByIds_pairwise _ _
    · exact findByIds_pairwise _ _
  · intro h
    unfold find
    rw [if_pos h]
    exact le_trans (findByIds_length_le _ _) h.2
  · intro h
    unfold find
    rw [if_neg h]
    unfold findByQuery
    calc (findByIds store (((sortDesc (store.filter (matchQuery f))).take
          (f.limit.getD cfg.default_limit)).map (fun x => x.id))).length
        ≤ (((sortDesc (store.filter (matchQuery f))).take
          (f.limit.getD cfg.default_limit)).map (fun x => x.id)).length :=
          findByIds_length_le _ _
      _ = ((sortDesc (store.filter (matchQuery f))).take
          (f.limit.getD cfg.default_limit)).length := List.length_map _ _
      _ ≤ f.limit.getD cfg.default_limit := by
          simpa using List.length_take_le _ _

/-- Witness for C3's amended bounds at concrete inputs: an ids-only filter is
bounded by `max_limit`, and a query-path filter without `limit` is bounded by
the default limit. -/
theorem C3_find_order_and_limit_witness :
    (find defaultConfig [⟨"aa", "p1", 100, 1, [], "", "s"⟩]
        { ids := some ["aa"] }).length ≤ defaultConfig.limitation.max_limit ∧
    (find defaultConfig [⟨"aa", "p1", 100, 1, [], "", "s"⟩]
        { kinds := some [1] }).length ≤
      ({ kinds := some [1] } : Filter).limit.getD defaultConfig.default_limit := by
  constructor
  · exact (C3_find_order_and_limit defaultConfig
      [⟨"aa", "p1", 100, 1, [], "", "s"⟩] { ids := some ["aa"] }).2.1
      ⟨by decide, by decide⟩
  · refine (C3_find_order_and_limit defaultConfig
      [⟨"aa", "p1", 100, 1, [], "", "s"⟩] { kinds := some [1] }).2.2 ?_
    rintro ⟨h, -⟩
    exact absurd h (by decide)

/-- Events used by the C3 counterexample store: distinct ids, kind 1. -/
def mkEv (i : Nat) : Event :=
  ⟨"e" ++ toString i, "p", (i : Int), 1, [], "", "s"⟩

/-- Counterexample to C3 as stated: with the published `max_limit` of 500, a
filter carrying `limit = 501` makes `find` return 501 events — the limit is
not hard-capped at `max_limit` on the query path. -/
theorem C3_limit_not_capped :
    defaultConfig.limitation.max_limit = 500 ∧
    (find defaultConfig ((List.range 501).map mkEv)
        { kinds := some [1], limit := some 501 }).length = 501 := by
  refine ⟨rfl, ?_⟩
  have hcond : ¬ (isIdsOnly { kinds := some [1], limit := some 501 } ∧
      (({ kinds := some [1], limit := some 501 } : Filter).ids.getD []).length ≤
        defaultConfig.limitation.max_limit) := by
    rintro ⟨h, -⟩
    exact absurd h (by decide)
  unfold find
  rw [if_neg hcond]
  unfold findByQuery
  have hfilter : ((List.range 501).map mkEv).filter
      (matchQuery { kinds := some [1], limit := some 501 }) =
      (List.range 501).map mkEv := by
    rw [List.filter_eq_self]
    intro x hx
    obtain ⟨i, _, hex⟩ := List.mem_map.mp hx
    subst hex
    rfl
  rw [hfilter]
  have hlen : ((List.range 501).map mkEv).length = 501 := by simp
  have hsortlen : (sortDesc ((List.range 501).map mkEv)).length = 501 := by
    rw [(sortDesc_perm _).length_eq]
    exact hlen
  have htake : (sortDesc ((List.range 501).map mkEv)).take
      (({ kinds := some [1], limit := some 501 } : Filter).limit.getD
        defaultConfig.default_limit) = sortDesc ((List.range 501).map mkEv) := by
    refine List.take_of_length_le ?_
    rw [hsortlen]
    decide
  rw [htake]
  unfold findByIds
  rw [(sortEvents_perm _).length_eq]
  rw [filterMap_length_of_isSome]
  · rw [List.length_map]
    exact hsortlen
  · intro a ha
    obtain ⟨y, hy, hya⟩ := List.mem_map.mp ha
    subst hya
    have hymem : y ∈ (List.range 501).map mkEv :=
      (sortDesc_perm _).mem_iff.mp hy
    exact List.find?_isSome.mpr ⟨y, hymem, by simp⟩

/-- C9: every REQ is either rejected outright with a single CLOSED frame and
no EVENT/EOSE frames and nothing persisted (oversized subscription id, too
many filters, a filter failing the structural-support check, or the
subscription cap exceeded), or succeeds with backfill events deduplicated by
id, sorted by `created_at` descending, streamed as EVENT frames and terminated
by exactly one EOSE frame, drawing every event from the filters' find results
and covering every found event id. -/
theorem C9_req_contract (cfg : Config) (vf : Filter → Bool)
    (findFn : Filter → List Event) (subId : String) (filters : List Filter)
    (subs : List (String × List Filter)) :
    ((cfg.limitation.max_subid_length < subId.length ∨
      cfg.limitation.max_filters < filters.length ∨
      (∃ f ∈ filters, vf f = false) ∨
      cfg.limitation.max_subscriptions < (mapSet subs subId filters).length) →
      (∃ m, (handleReq cfg vf findFn subId filters subs).frames =
          [Frame.closed subId m]) ∧
        (handleReq cfg vf findFn subId filters subs).stored = none) ∧
    (¬ (cfg.limitation.max_subid_length < subId.length ∨
      cfg.limitation.max_filters < filters.length ∨
      (∃ f ∈ filters, vf f = false) ∨
      cfg.limitation.max_subscriptions < (mapSet subs subId filters).length) →
      ∃ es : List Event,
        (handleReq cfg vf findFn subId filters subs).frames =
          es.map (Frame.event subId) ++ [Frame.eose subId] ∧
        es.Pairwise (fun a b => a.id ≠ b.id) ∧
        es.Pairwise (fun a b => b.created_at ≤ a.created_at) ∧
        (∀ e ∈ es, ∃ f ∈ filters, e ∈ findFn f) ∧
        (∀ f ∈ filters, ∀ e ∈ findFn f, ∃ x ∈ es, x.id = e.id) ∧
        (handleReq cfg vf findFn subId filters subs).stored =
          some (mapSet subs subId filters)) := by
  unfold handleReq
  split_ifs with h1 h2 h3 h4
  · exact ⟨fun _ => ⟨⟨_, rfl⟩, rfl⟩, fun hn => absurd (Or.inl h1) hn⟩
  · exact ⟨fun _ => ⟨⟨_, rfl⟩, rfl⟩, fun hn => absurd (Or.inr (Or.inl h2)) hn⟩
  · refine ⟨fun _ => ⟨⟨_, rfl⟩, rfl⟩, fun hn => ?_⟩
    obtain ⟨f, hf, hvf⟩ := List.any_eq_true.mp h3
    exact absurd (Or.inr (Or.inr (Or.inl ⟨f, hf, by simpa using hvf⟩))) hn
  · exact ⟨fun _ => ⟨⟨_, rfl⟩, rfl⟩,
      fun hn => absurd (Or.inr (Or.inr (Or.inr h4))) hn⟩
  · constructor
    · intro hdisj
      rcases hdisj with h | h | ⟨f, hf, hvf⟩ | h
      · exact absurd h h1
      · exact absurd h h2
      · exact absurd (List.any_eq_true.mpr ⟨f, hf, by simp [hvf]⟩) h3
      · exact absurd h h4
    · intro _
      obtain ⟨hpw, hsound, hcomplete⟩ := dedupById_spec (filters.map findFn).flatten
      refine ⟨sortEvents (dedupById (filters.map findFn).flatten), rfl, ?_, ?_, ?_, ?_, rfl⟩
      · exact ((sortEvents_perm _).pairwise_iff (fun h => Ne.symm h)).mpr hpw
      · exact sortEvents_pairwise _
      · intro e he
        have hmem := (sortEvents_perm _).mem_iff.mp he
        obtain ⟨l, hl, hel⟩ := List.mem_flatten.mp (hsound e hmem)
        obtain ⟨f, hf, rfl⟩ := List.mem_map.mp hl
        exact ⟨f, hf, hel⟩
      · intro f hf e he
        have hmem : e ∈ (filters.map findFn).flatten :=
          List.mem_flatten.mpr ⟨findFn f, List.mem_map.mpr ⟨f, hf, rfl⟩, he⟩
        obtain ⟨x, hx, hxid⟩ := hcomplete e hmem
        exact ⟨x, (sortEvents_perm _).mem_iff.mpr hx, hxid⟩

/-- Witness for C9: a REQ with 11 filters against `max_filters = 10` yields a
single CLOSED frame and no storage write; a REQ with one supported filter
succeeds with EVENT frames terminated by one EOSE. -/
theorem C9_req_contract_witness :
    ((∃ m, (handleReq defaultConfig (fun _ => true) (fun _ => []) "sub"
        (List.replicate 11 {}) []).frames = [Frame.closed "sub" m]) ∧
      (handleReq defaultConfig (fun _ => true) (fun _ => []) "sub"
        (List.replicate 11 {}) []).stored = none) ∧
    (∃ es : List Event,
      (handleReq defaultConfig (fun _ => true) (fun _ => []) "sub" [{}] []).frames =
        es.map (Frame.event "sub") ++ [Frame.eose "sub"] ∧
      es.Pairwise (fun a b => a.id ≠ b.id) ∧
      es.Pairwise (fun a b => b.created_at ≤ a.created_at) ∧
      (∀ e ∈ es, ∃ f ∈ ([{}] : List Filter), e ∈ (fun _ => ([] : List Event)) f) ∧
      (∀ f ∈ ([{}] : List Filter), ∀ e ∈ (fun _ => ([] : List Event)) f,
        ∃ x ∈ es, x.id = e.id) ∧
      (handleReq defaultConfig (fun _ => true) (fun _ => []) "sub" [{}] []).stored =
        some (mapSet [] "sub" [{}])) := by
  constructor
  · exact (C9_req_contract defaultConfig (fun _ => true) (fun _ => []) "sub"
      (List.replicate 11 {}) []).1 (Or.inr (Or.inl (by decide)))
  · refine (C9_req_contract defaultConfig (fun _ => true) (fun _ => []) "sub"
      [{}] []).2 ?_
    rintro (h | h | ⟨f, hf, hvf⟩ | h)
    · exact absurd h (by decide)
    · exact absurd h (by decide)
    · exact absurd hvf (by simp)
    · exact absurd h (by decide)

end Snowflare
